import Mathlib

/-!
Shallow embedding of `app.py`, a student discipline tracking web application
(Flask + SQLAlchemy). The relational store is modelled as a record of three
insertion-ordered lists (`users`, `students`, `offenses`); each route handler
becomes a pure function on that store. Python dicts are modelled as
insertion-ordered association lists with in-place update semantics. Each
mutation route does one `db.session.commit()`, so a whole handler is a single
atomic step of the model; an error result (`Except.error`) means no commit
happened and the store is unchanged.
-/

set_option maxHeartbeats 1000000

namespace SDTS

/-- Calendar date, modelling Python `datetime.date` (`Offense.date` column). -/
structure DateD where
  year : Int
  month : Nat
  day : Nat
deriving DecidableEq

/-- Lexicographic `≤` on dates: how SQLite compares `Date` column values in
`Offense.date >= start_date` / `<= end_date` filters and `order_by(Offense.date)`. -/
def DateD.le (a b : DateD) : Bool :=
  decide (a.year < b.year) ||
  (decide (a.year = b.year) &&
    (decide (a.month < b.month) ||
      (decide (a.month = b.month) && decide (a.day ≤ b.day))))

/-- Modelled from the spec: werkzeug's salted one-way password hashing
(`generate_password_hash` / `check_password_hash`), external library code not
in the repository. Spec §4.2: "derives and stores a salted hash of the
password (never the plaintext)"; verification "recomputes the hash with the
stored salt and compares". The one-way digest is modelled as an injective
function of password and salt. -/
structure PwHash where
  salt : String
  digest : String
deriving DecidableEq

/-- Modelled from the spec: derive a salted digest from the plaintext. -/
def generate_password_hash (salt password : String) : PwHash :=
  { salt := salt, digest := password ++ salt }

/-- Modelled from the spec: recompute the digest with the stored salt and compare. -/
def check_password_hash (h : PwHash) (password : String) : Bool :=
  h.digest == password ++ h.salt

/-- `User` model: `id`, unique `email`, `password_hash`. -/
structure User where
  id : Nat
  email : String
  password_hash : PwHash
deriving DecidableEq

/-- `User.check_password` (app.py line 29). -/
def User.check_password (u : User) (password : String) : Bool :=
  check_password_hash u.password_hash password

/-- `Student` model (app.py lines 32-40). -/
structure Student where
  id : Nat
  name : String
  age : Int
  gender : String
  grade_level : String
  «section» : String
  strand : String
deriving DecidableEq

/-- `Offense` model (app.py lines 42-49); `description` is a nullable Text column. -/
structure Offense where
  id : Nat
  student_id : Nat
  offense_type : String
  category : String
  subtype : String
  date : DateD
  description : Option String
deriving DecidableEq

/-- The relational store (`site.db`): three tables in insertion order. -/
structure DB where
  users : List User
  students : List Student
  offenses : List Offense
deriving DecidableEq

/-- Error taxonomy of the spec (§7): duplicate email, missing record, bad credentials. -/
inductive AppError where
  | DuplicateError
  | NotFoundError
  | AuthenticationError
deriving DecidableEq

/-- The store an HTTP request leaves behind: the new store on success, the old
store when the handler bailed out before `db.session.commit()`. -/
def db_after (r : Except AppError DB) (db : DB) : DB :=
  match r with
  | .ok db' => db'
  | .error _ => db

/-- Next autoincrement primary key (SQLite: max existing id + 1). -/
def nextId (ids : List Nat) : Nat :=
  ids.foldl max 0 + 1

/-! ### Python dict model: insertion-ordered association lists -/

/-- Python `d[k]` / `k in d`: first (unique) binding for `k`. -/
def dictGet {κ α : Type} [BEq κ] (k : κ) : List (κ × α) → Option α
  | [] => none
  | (k', v) :: rest => if k' == k then some v else dictGet k rest

/-- Python `d[k] = v`: update in place if the key exists, else append at the end. -/
def dictSet {κ α : Type} [BEq κ] (k : κ) (v : α) : List (κ × α) → List (κ × α)
  | [] => [(k, v)]
  | (k', v') :: rest => if k' == k then (k', v) :: rest else (k', v') :: dictSet k v rest

/-! ### Route handlers (app.py lines 116-241) -/

/-- `register` (app.py lines 116-129): reject if a user with that email already
exists (`User.query.filter_by(email=...).first()`), otherwise insert a new
`User` whose `password_hash` is the salted hash of the plaintext. The salt
drawn by the hash library is passed explicitly. -/
def register (db : DB) (email password salt : String) : Except AppError DB :=
  if db.users.any (fun u => u.email == email) then
    .error .DuplicateError
  else
    .ok { db with
          users := db.users ++
            [{ id := nextId (db.users.map User.id),
               email := email,
               password_hash := generate_password_hash salt password }] }

/-- `login` (app.py lines 131-140): look the user up by email
(`filter_by(email=...).first()`); succeed only when found and
`check_password` accepts, otherwise flash "Invalid email or password." -/
def login (db : DB) (email password : String) : Except AppError User :=
  match db.users.find? (fun u => u.email == email) with
  | some u => if u.check_password password then .ok u else .error .AuthenticationError
  | none => .error .AuthenticationError

/-- `students` roster view (app.py lines 153-157): `Student.query.all()`,
the whole table in stored (insertion/id) order. -/
def students (db : DB) : List Student :=
  db.students

/-- `add_student` (app.py lines 159-176): insert a new `Student` with a fresh id. -/
def add_student (db : DB) (name : String) (age : Int)
    (gender grade_level sect strand : String) : DB :=
  { db with
    students := db.students ++
      [{ id := nextId (db.students.map Student.id),
         name := name, age := age, gender := gender,
         grade_level := grade_level, «section» := sect, strand := strand }] }

/-- `edit_student` (app.py lines 178-193): `get_or_404`, then replace every
mutable field of the record in place. -/
def edit_student (db : DB) (id : Nat) (name : String) (age : Int)
    (gender grade_level sect strand : String) : Except AppError DB :=
  if db.students.any (fun st => st.id == id) then
    .ok { db with
          students := db.students.map (fun st =>
            if st.id == id then
              { st with name := name, age := age, gender := gender,
                        grade_level := grade_level, «section» := sect, strand := strand }
            else st) }
  else .error .NotFoundError

/-- `delete_student` (app.py lines 195-204): `get_or_404`, then
`Offense.query.filter_by(student_id=id).delete()` (bulk-delete every offense
of that student), then `db.session.delete(student)`, then a single
`db.session.commit()` — one atomic step of the model. -/
def delete_student (db : DB) (id : Nat) : Except AppError DB :=
  if db.students.any (fun st => st.id == id) then
    .ok { db with
          offenses := db.offenses.filter (fun o => o.student_id != id),
          students := db.students.filter (fun st => st.id != id) }
  else .error .NotFoundError

/-- The offense-list query of the `offenses` view (app.py line 210):
`Offense.query.filter_by(student_id=id).all()`. -/
def listOffensesForStudent (db : DB) (id : Nat) : List Offense :=
  db.offenses.filter (fun o => o.student_id == id)

/-- `offenses` view (app.py lines 206-211): `get_or_404` on the student, then
the offense list for that student. -/
def offenses (db : DB) (id : Nat) : Except AppError (List Offense) :=
  if db.students.any (fun st => st.id == id) then
    .ok (listOffensesForStudent db id)
  else .error .NotFoundError

/-- `add_offense` (app.py lines 213-231): `get_or_404` on the student, then
insert a new `Offense` referencing it. -/
def add_offense (db : DB) (id : Nat) (offense_type category subtype : String)
    (date : DateD) (description : Option String) : Except AppError DB :=
  if db.students.any (fun st => st.id == id) then
    .ok { db with
          offenses := db.offenses ++
            [{ id := nextId (db.offenses.map Offense.id),
               student_id := id, offense_type := offense_type,
               category := category, subtype := subtype,
               date := date, description := description }] }
  else .error .NotFoundError

/-- `delete_offense` (app.py lines 233-241): `get_or_404` on the offense, then
`db.session.delete(offense)`. Ids are primary keys, so deleting the one
record equals dropping every record with that id. -/
def delete_offense (db : DB) (id : Nat) : Except AppError DB :=
  if db.offenses.any (fun o => o.id == id) then
    .ok { db with offenses := db.offenses.filter (fun o => o.id != id) }
  else .error .NotFoundError

/-! ### Aggregate endpoints (app.py lines 248-287) -/

/-- Keep the first occurrence of every element not seen so far. -/
def firstOccsAux {α : Type} [BEq α] : List α → List α → List α
  | [], _ => []
  | x :: xs, seen =>
    if seen.contains x then firstOccsAux xs seen
    else x :: firstOccsAux xs (x :: seen)

/-- Keep the first occurrence of every element (the distinct grouping keys of a
SQL `GROUP BY`, in first-appearance order). -/
def firstOccs {α : Type} [BEq α] (l : List α) : List α :=
  firstOccsAux l []

/-- `GROUP BY k1, k2` with `count(*)`: one row per distinct key pair of `rows`,
carrying the number of joined rows with that key pair. -/
def grouped2 (rows : List (String × String)) : List (String × String × Nat) :=
  (firstOccs rows).map (fun r => (r.1, r.2, rows.count r))

/-- The join rows of
`db.session.query(Student.grade_level, Offense.offense_type, ...).join(Offense, Student.id == Offense.student_id)`:
one `(grade_level, offense_type)` row per offense whose owning student exists
(inner join; students are looked up by primary key). -/
def type_grade_rows (db : DB) : List (String × String) :=
  db.offenses.filterMap (fun o =>
    (db.students.find? (fun st => st.id == o.student_id)).map
      (fun st => (st.grade_level, o.offense_type)))

/-- Same join keyed by `(Student.grade_level, Student.gender)` (app.py lines 274-280). -/
def gender_grade_rows (db : DB) : List (String × String) :=
  db.offenses.filterMap (fun o =>
    (db.students.find? (fun st => st.id == o.student_id)).map
      (fun st => (st.grade_level, st.gender)))

/-- One iteration of the result-building loop (app.py lines 263-266 and 283-286):
`if grade not in data: data[grade] = zeros` then `data[grade][key] = count`,
collapsed into a single dict write. -/
def aggStep (zeros : List (String × Nat))
    (data : List (String × List (String × Nat))) (r : String × String × Nat) :
    List (String × List (String × Nat)) :=
  dictSet r.1 (dictSet r.2.1 r.2.2 ((dictGet r.1 data).getD zeros)) data

/-- `offenses_by_type_grade` (app.py lines 248-268): group the join by
`(grade_level, offense_type)`, then build
`{grade: {'warning': 0, 'minor': 0, 'major': 0}}` zero-filled dicts and write
each group count in. -/
def offenses_by_type_grade (db : DB) : List (String × List (String × Nat)) :=
  (grouped2 (type_grade_rows db)).foldl
    (aggStep [("warning", 0), ("minor", 0), ("major", 0)]) []

/-- `offenses_by_gender_grade` (app.py lines 270-287): same shape keyed by
gender with `{'Male': 0, 'Female': 0}` zero fill. -/
def offenses_by_gender_grade (db : DB) : List (String × List (String × Nat)) :=
  (grouped2 (gender_grade_rows db)).foldl
    (aggStep [("Male", 0), ("Female", 0)]) []

/-! ### Calendar view (app.py lines 289-336) -/

/-- Python `calendar.isleap`. -/
def isLeap (y : Int) : Bool :=
  y % 4 == 0 && (y % 100 != 0 || y % 400 == 0)

/-- Length of a month: `calendar.monthrange(year, month)[1]`. -/
def monthLength (y : Int) (m : Nat) : Nat :=
  if m == 2 then (if isLeap y then 29 else 28)
  else if m == 4 || m == 6 || m == 9 || m == 11 then 30
  else 31

/-- Zero-pad a number to two digits (`strftime` `%m` / `%d`). -/
def pad2 (n : Nat) : String :=
  if n < 10 then "0" ++ toString n else toString n

/-- Zero-pad a year to four digits (`strftime` `%Y`). -/
def pad4 (y : Int) : String :=
  if y < 0 then "-" ++ toString (-y)
  else if y < 10 then "000" ++ toString y
  else if y < 100 then "00" ++ toString y
  else if y < 1000 then "0" ++ toString y
  else toString y

/-- `date.strftime('%Y-%m-%d')`. -/
def fmtDate (d : DateD) : String :=
  pad4 d.year ++ "-" ++ pad2 d.month ++ "-" ++ pad2 d.day

/-- Python `str.capitalize`: first character upper-cased, the rest lower-cased. -/
def pyCapitalize (s : String) : String :=
  match s.data with
  | [] => ""
  | c :: cs => String.mk (c.toUpper :: cs.map Char.toLower)

/-- The detail string built for one offense (app.py line 313):
`f"{offense.offense_type.capitalize()} - {offense.description or 'No description'} ({offense.date.strftime('%Y-%m-%d')})"`.
Python `or` treats both a missing and an empty description as falsy. -/
def offense_detail (o : Offense) : String :=
  pyCapitalize o.offense_type ++ " - " ++
    (match o.description with
     | some d => if d == "" then "No description" else d
     | none => "No description") ++
    " (" ++ fmtDate o.date ++ ")"

/-- Month normalization (app.py lines 294-296): a month outside 1-12 is
replaced by the current calendar month (`datetime.now().month`, passed
explicitly as `nowMonth`). -/
def effective_month (month : Int) (nowMonth : Nat) : Nat :=
  if month < 1 || month > 12 then nowMonth else month.toNat

/-- The month query of `calendar_view` (app.py lines 298-306): offenses of the
student with dates in `[first day, last day]` of month `m`, ordered by date
ascending. -/
def calendar_offenses (db : DB) (id : Nat) (year : Int) (m : Nat) : List Offense :=
  (db.offenses.filter (fun o =>
      o.student_id == id &&
      DateD.le { year := year, month := m, day := 1 } o.date &&
      DateD.le o.date { year := year, month := m, day := monthLength year m })).mergeSort
    (fun a b => DateD.le a.date b.date)

/-- The `offense_dates` defaultdict loop (app.py lines 308-314): group the
sorted offenses by day of month, appending each detail string to its day's list. -/
def build_offense_dates (l : List Offense) : List (Nat × List String) :=
  l.foldl (fun acc o =>
    dictSet o.date.day ((dictGet o.date.day acc).getD [] ++ [offense_detail o]) acc) []

/-- What `calendar_view` hands to the template: the effective month, the
per-day detail mapping, and the prev/next navigation targets. -/
structure CalendarResult where
  month : Nat
  offense_dates : List (Nat × List String)
  prev_month : Nat
  prev_year : Int
  next_month : Nat
  next_year : Int
deriving DecidableEq

/-- `calendar_view` (app.py lines 289-336): `get_or_404` on the student,
normalize the month, query and group the offenses, compute navigation. -/
def calendar_view (db : DB) (id : Nat) (year : Int) (month : Int) (nowMonth : Nat) :
    Except AppError CalendarResult :=
  if db.students.any (fun st => st.id == id) then
    let m := effective_month month nowMonth
    .ok { month := m,
          offense_dates := build_offense_dates (calendar_offenses db id year m),
          prev_month := if m > 1 then m - 1 else 12,
          prev_year := if m > 1 then year else year - 1,
          next_month := if m < 12 then m + 1 else 1,
          next_year := if m < 12 then year else year + 1 }
  else .error .NotFoundError

/-! ### Search / browse (app.py lines 338-365) -/

/-- Boolean substring containment on character lists. -/
def infixCheck (p : List Char) : List Char → Bool
  | [] => p.isEmpty
  | c :: rest => p.isPrefixOf (c :: rest) || infixCheck p rest

/-- Python `str.strip()` (app.py line 341): drop whitespace from both ends. -/
def pyStrip (s : String) : String :=
  String.mk (((s.data.dropWhile Char.isWhitespace).reverse.dropWhile
    Char.isWhitespace).reverse)

/-- SQL `lower()`, applied by `ilike` to both operands. -/
def lowerChars (s : String) : List Char :=
  s.data.map Char.toLower

/-- Helper for the `%` wildcard: does `rest` accept some suffix of the string
(including the string itself and the empty suffix)? -/
def likeSuffix (rest : List Char → Bool) : List Char → Bool
  | [] => rest []
  | c :: s => rest (c :: s) || likeSuffix rest s

/-- SQL `LIKE` pattern matching over the whole string: `%` matches any run of
characters (including none), `_` matches exactly one character, any other
pattern character matches itself. -/
def likeMatch : List Char → List Char → Bool
  | [] => fun s => s.isEmpty
  | p :: ps =>
    let rest := likeMatch ps
    if p = '%' then likeSuffix rest
    else fun s =>
      match s with
      | [] => false
      | c :: s' => (p = '_' || p = c) && rest s'

/-- SQL `column ILIKE '%' || term || '%'` as app.py line 348 builds it
(`f"%{search}%"`, the user term interpolated with no escaping): both operands
lower-cased, then LIKE-matched, so `%` and `_` inside the term keep their
wildcard meaning; a NULL column never matches. -/
def ilike (field : Option String) (term : String) : Bool :=
  match field with
  | some s => likeMatch ('%' :: (lowerChars term ++ ['%'])) (lowerChars s)
  | none => false

/-- The `or_` search filter of `all_offenses` (app.py lines 348-355): the term
matches the owning student's name, the description, or the offense type. -/
def matchesSearch (db : DB) (term : String) (o : Offense) : Bool :=
  (match db.students.find? (fun st => st.id == o.student_id) with
   | some st => ilike (some st.name) term
   | none => false) ||
  ilike o.description term ||
  ilike (some o.offense_type) term

/-- The spec's filter predicate read literally (§4.3: "match is substring
containment"): the term is case-insensitively contained as a substring of the
owning student's name, the description, or the offense type — no wildcard
reading. Stated from the spec's words, to be compared with the code's LIKE
semantics. -/
def literal_substring_match (db : DB) (term : String) (o : Offense) : Bool :=
  (match db.students.find? (fun st => st.id == o.student_id) with
   | some st => infixCheck (lowerChars term) (lowerChars st.name)
   | none => false) ||
  (match o.description with
   | some d => infixCheck (lowerChars term) (lowerChars d)
   | none => false) ||
  infixCheck (lowerChars term) (lowerChars o.offense_type)

/-- The query of `all_offenses` before pagination:
`Offense.query.join(Student).order_by(Offense.date.desc())`, with the search
filter applied when the stripped term is non-empty. -/
def all_offenses_query (db : DB) (searchRaw : String) : List Offense :=
  let search := pyStrip searchRaw
  let base := (db.offenses.filter (fun o =>
      db.students.any (fun st => st.id == o.student_id))).mergeSort
    (fun a b => DateD.le b.date a.date)
  if search != "" then base.filter (matchesSearch db search) else base

/-- `all_offenses` (app.py lines 338-365): `query.paginate(page=page,
per_page=20, error_out=False)` — pages are 1-indexed, an invalid page number
is clamped to 1 rather than erroring, and a page past the end is empty. -/
def all_offenses (db : DB) (searchRaw : String) (page : Int) : List Offense :=
  let p : Nat := if page < 1 then 1 else page.toNat
  ((all_offenses_query db searchRaw).drop ((p - 1) * 20)).take 20

/-! ### Invariants -/

/-- Referential integrity (spec §3): no `Offense` may reference a nonexistent
`Student`. -/
def RefIntegrity (db : DB) : Prop :=
  ∀ o ∈ db.offenses, ∃ st ∈ db.students, st.id = o.student_id

/-- The `students` table is stored in ascending primary-key order, which is the
insertion order produced by autoincrement ids. -/
def idSorted (db : DB) : Prop :=
  List.Pairwise (fun a b => a.id < b.id) db.students

/-! ### Concrete fixtures (for instantiating the theorems) -/

/-- Fixture: a grade-11 student. -/
def fxStudent1 : Student :=
  { id := 1, name := "Alice Smith", age := 16, gender := "Female",
    grade_level := "11", «section» := "A", strand := "STEM" }

/-- Fixture: a grade-12 student. -/
def fxStudent2 : Student :=
  { id := 2, name := "Bob Cruz", age := 17, gender := "Male",
    grade_level := "12", «section» := "B", strand := "ABM" }

/-- Fixture offenses: two warnings and one major for the grade-11 student,
one minor for the grade-12 student. -/
def fxO1 : Offense :=
  { id := 1, student_id := 1, offense_type := "warning", category := "Academic",
    subtype := "", date := { year := 2024, month := 3, day := 5 }, description := some "late" }

/-- Fixture offense 2 (no description). -/
def fxO2 : Offense :=
  { id := 2, student_id := 1, offense_type := "warning", category := "Academic",
    subtype := "", date := { year := 2024, month := 3, day := 7 }, description := none }

/-- Fixture offense 3 (major). -/
def fxO3 : Offense :=
  { id := 3, student_id := 1, offense_type := "major", category := "Safety",
    subtype := "", date := { year := 2024, month := 2, day := 1 }, description := some "" }

/-- Fixture offense 4 (minor, grade-12 student). -/
def fxO4 : Offense :=
  { id := 4, student_id := 2, offense_type := "minor", category := "Uniform",
    subtype := "", date := { year := 2024, month := 3, day := 7 }, description := some "no id" }

/-- Fixture store: the aggregate fixture of the spec (§8). -/
def fxDB : DB :=
  { users := [], students := [fxStudent1, fxStudent2], offenses := [fxO1, fxO2, fxO3, fxO4] }

/-- Fixture store with a grade that has a student but no offenses ("10") and a
stored `offense_type` outside the warning/minor/major enumeration ("severe"). -/
def fxDB2 : DB :=
  { users := [],
    students := [{ id := 1, name := "Dana", age := 16, gender := "Female",
                   grade_level := "10", «section» := "A", strand := "STEM" },
                 { id := 2, name := "Eli", age := 17, gender := "Male",
                   grade_level := "11", «section» := "B", strand := "HUMSS" }],
    offenses := [{ id := 1, student_id := 2, offense_type := "severe",
                   category := "Other", subtype := "",
                   date := { year := 2024, month := 1, day := 9 }, description := none }] }

/-- Fixture offense for the search counterexample: no field contains a
literal underscore. -/
def fxO5 : Offense :=
  { id := 1, student_id := 1, offense_type := "warning", category := "Academic",
    subtype := "", date := { year := 2024, month := 5, day := 2 }, description := none }

/-- Fixture store for the search counterexample: one student named "A"
owning `fxO5`. -/
def fxDB3 : DB :=
  { users := [],
    students := [{ id := 1, name := "A", age := 16, gender := "Female",
                   grade_level := "11", «section» := "A", strand := "STEM" }],
    offenses := [fxO5] }

/-- The per-grade updates a grade `g` receives while the aggregate loop walks
the grouped rows `L`: every row of `L` keyed by `g` writes its count into the
inner dict. -/
def applyUpd (g : String) (L : List (String × String × Nat)) (m : List (String × Nat)) :
    List (String × Nat) :=
  L.foldl (fun acc r => if r.1 == g then dictSet r.2.1 r.2.2 acc else acc) m

/-- Number of offenses whose owning student exists and has grade level `g` and
whose `offense_type` is `t` — the quantity the type/grade aggregate reports. -/
def offense_count_in (db : DB) (g t : String) : Nat :=
  (db.offenses.filter (fun o =>
    o.offense_type == t &&
    ((db.students.find? fun st => st.id == o.student_id).any
      fun st => st.grade_level == g))).length

/-- Whether some offense is owned by a student of grade level `g` — exactly
when the inner join produces a row for grade `g`. -/
def grade_has_offense (db : DB) (g : String) : Bool :=
  db.offenses.any fun o =>
    (db.students.find? fun st => st.id == o.student_id).any
      fun st => st.grade_level == g

/-! ## General-purpose lemmas -/

theorem find?_append_none {α : Type} (p : α → Bool) (l₁ l₂ : List α)
    (h : l₁.find? p = none) : (l₁ ++ l₂).find? p = l₂.find? p := by
  rw [List.find?_append, h, Option.none_or]

theorem string_append_cancel {a b c : String} (h : a ++ c = b ++ c) : a = b := by
  apply String.ext
  have hd := congrArg String.data h
  rw [String.data_append, String.data_append] at hd
  exact List.append_cancel_right hd

theorem dictGet_dictSet {κ α : Type} [BEq κ] [LawfulBEq κ] (k k' : κ) (v : α) :
    ∀ l : List (κ × α),
      dictGet k' (dictSet k v l) = if k == k' then some v else dictGet k' l := by
  intro l
  induction l with
  | nil => simp [dictGet, dictSet]
  | cons p rest ih =>
    obtain ⟨a, b⟩ := p
    by_cases hak : a = k
    · subst hak
      by_cases h : (a == k') = true <;> simp [dictGet, dictSet, h]
    · have hak' : (a == k) = false := by simp [hak]
      by_cases hkk : k = k'
      · subst hkk
        simp [dictGet, dictSet, hak', hak, ih]
      · have hkk' : (k == k') = false := by simp [hkk]
        by_cases hak2 : a = k'
        · subst hak2
          simp [dictGet, dictSet, hak', hkk']
        · simp [dictGet, dictSet, hak', hkk', hak2, ih]

theorem applyUpd_cons_pos (g : String) (r : String × String × Nat)
    (L : List (String × String × Nat)) (m : List (String × Nat))
    (hr : (r.1 == g) = true) :
    applyUpd g (r :: L) m = applyUpd g L (dictSet r.2.1 r.2.2 m) := by
  unfold applyUpd
  rw [List.foldl_cons, if_pos hr]

theorem applyUpd_cons_neg (g : String) (r : String × String × Nat)
    (L : List (String × String × Nat)) (m : List (String × Nat))
    (hr : (r.1 == g) = false) :
    applyUpd g (r :: L) m = applyUpd g L m := by
  unfold applyUpd
  rw [List.foldl_cons, if_neg (by rw [hr]; exact Bool.false_ne_true)]

theorem dictGet_foldl_aggStep (zeros : List (String × Nat)) (g : String) :
    ∀ (L : List (String × String × Nat)) (D : List (String × List (String × Nat))),
      dictGet g (L.foldl (aggStep zeros) D) =
        match dictGet g D with
        | some m => some (applyUpd g L m)
        | none => if L.any (fun r => r.1 == g) then some (applyUpd g L zeros) else none := by
  intro L
  induction L with
  | nil =>
    intro D
    cases hD : dictGet g D <;> simp [applyUpd, hD]
  | cons r L ih =>
    intro D
    rw [List.foldl_cons, ih]
    have hstep : dictGet g (aggStep zeros D r) =
        if r.1 == g then
          some (dictSet r.2.1 r.2.2 ((dictGet r.1 D).getD zeros))
        else dictGet g D := by
      unfold aggStep
      rw [dictGet_dictSet]
    by_cases hr : (r.1 == g) = true
    · have hrEq : r.1 = g := eq_of_beq hr
      rw [hstep, if_pos hr]
      cases hD : dictGet g D with
      | some m =>
        have hD' : dictGet r.1 D = some m := by rw [hrEq]; exact hD
        rw [hD']
        show some (applyUpd g L (dictSet r.2.1 r.2.2 m)) = some (applyUpd g (r :: L) m)
        rw [applyUpd_cons_pos g r L m hr]
      | none =>
        have hD' : dictGet r.1 D = none := by rw [hrEq]; exact hD
        rw [hD']
        show some (applyUpd g L (dictSet r.2.1 r.2.2 zeros)) =
          if ((r :: L).any fun x => x.1 == g) = true then
            some (applyUpd g (r :: L) zeros) else none
        rw [if_pos (by simp [List.any_cons, hr]), applyUpd_cons_pos g r L zeros hr]
    · have hr' : (r.1 == g) = false := Bool.eq_false_iff.mpr hr
      rw [hstep, if_neg hr]
      cases hD : dictGet g D with
      | some m =>
        show some (applyUpd g L m) = some (applyUpd g (r :: L) m)
        rw [applyUpd_cons_neg g r L m hr']
      | none =>
        show (if (L.any fun x => x.1 == g) = true then some (applyUpd g L zeros) else none) =
          if ((r :: L).any fun x => x.1 == g) = true then
            some (applyUpd g (r :: L) zeros) else none
        simp only [List.any_cons, hr', Bool.false_or,
          applyUpd_cons_neg g r L zeros hr']

theorem applyUpd_absent (g t : String) :
    ∀ (L : List (String × String × Nat)) (m : List (String × Nat)),
      (∀ r ∈ L, ¬(r.1 = g ∧ r.2.1 = t)) →
      dictGet t (applyUpd g L m) = dictGet t m := by
  intro L
  induction L with
  | nil => intro m _; rfl
  | cons r L ih =>
    intro m h
    rw [applyUpd, List.foldl_cons]
    have htail : ∀ r' ∈ L, ¬(r'.1 = g ∧ r'.2.1 = t) :=
      fun r' hr' => h r' (List.mem_cons_of_mem _ hr')
    rw [show (L.foldl (fun acc r => if r.1 == g then dictSet r.2.1 r.2.2 acc else acc)
          (if r.1 == g then dictSet r.2.1 r.2.2 m else m)) =
        applyUpd g L (if r.1 == g then dictSet r.2.1 r.2.2 m else m) from rfl,
       ih _ htail]
    by_cases hr : r.1 = g
    · have hne : ¬ r.2.1 = t := fun hc => h r (List.mem_cons_self _ _) ⟨hr, hc⟩
      rw [if_pos (by simp [hr]), dictGet_dictSet, if_neg (by simp [hne])]
    · rw [if_neg (by simp [hr])]

theorem applyUpd_found (g t : String) (c : Nat) :
    ∀ (L : List (String × String × Nat)) (m : List (String × Nat)),
      List.Pairwise (fun a b => ¬(a.1 = b.1 ∧ a.2.1 = b.2.1)) L →
      (g, t, c) ∈ L →
      dictGet t (applyUpd g L m) = some c := by
  intro L
  induction L with
  | nil => intro m _ hmem; cases hmem
  | cons r L ih =>
    intro m hpw hmem
    have hpw' := List.pairwise_cons.mp hpw
    rw [applyUpd, List.foldl_cons]
    rw [show (L.foldl (fun acc r => if r.1 == g then dictSet r.2.1 r.2.2 acc else acc)
          (if r.1 == g then dictSet r.2.1 r.2.2 m else m)) =
        applyUpd g L (if r.1 == g then dictSet r.2.1 r.2.2 m else m) from rfl]
    rcases List.mem_cons.mp hmem with rfl | htail
    · have habs : ∀ r' ∈ L, ¬(r'.1 = g ∧ r'.2.1 = t) := by
        intro r' hr' hc
        exact hpw'.1 r' hr' ⟨hc.1.symm, hc.2.symm⟩
      rw [applyUpd_absent g t L _ habs]
      rw [if_pos (by simp), dictGet_dictSet, if_pos (by simp)]
    · exact ih _ hpw'.2 htail

theorem firstOccsAux_mem {α : Type} [BEq α] [LawfulBEq α] :
    ∀ (l seen : List α) (a : α),
      a ∈ firstOccsAux l seen ↔ a ∈ l ∧ ¬ a ∈ seen := by
  intro l
  induction l with
  | nil => intro seen a; simp [firstOccsAux]
  | cons x xs ih =>
    intro seen a
    simp only [firstOccsAux]
    by_cases hc : seen.contains x = true
    · have hx : x ∈ seen := List.elem_iff.mp hc
      rw [if_pos hc, ih seen a, List.mem_cons]
      constructor
      · rintro ⟨ha, hna⟩; exact ⟨Or.inr ha, hna⟩
      · rintro ⟨hor, hna⟩
        rcases hor with rfl | ha
        · exact absurd hx hna
        · exact ⟨ha, hna⟩
    · rw [if_neg hc, List.mem_cons, ih (x :: seen) a, List.mem_cons, List.mem_cons]
      by_cases hax : a = x
      · subst hax
        have hna : ¬ a ∈ seen := fun hmem => hc (List.elem_iff.mpr hmem)
        simp [hna]
      · simp only [hax, false_or]

theorem firstOccsAux_pairwise {α : Type} [BEq α] [LawfulBEq α] :
    ∀ (l seen : List α),
      List.Pairwise (fun a b => a ≠ b) (firstOccsAux l seen) := by
  intro l
  induction l with
  | nil => intro seen; simp [firstOccsAux]
  | cons x xs ih =>
    intro seen
    simp only [firstOccsAux]
    by_cases hc : seen.contains x = true
    · rw [if_pos hc]; exact ih seen
    · rw [if_neg hc]
      refine List.Pairwise.cons ?_ (ih (x :: seen))
      intro b hb
      have hbmem := (firstOccsAux_mem xs (x :: seen) b).mp hb
      intro hxb
      exact hbmem.2 (by rw [← hxb]; exact List.mem_cons_self _ _)

theorem firstOccs_props {α : Type} [BEq α] [LawfulBEq α] (l : List α) :
    (∀ a, a ∈ firstOccs l ↔ a ∈ l) ∧
    List.Pairwise (fun a b => a ≠ b) (firstOccs l) :=
  ⟨fun a => by simp [firstOccs, firstOccsAux_mem l [] a],
   firstOccsAux_pairwise l []⟩

theorem grouped2_mem (rows : List (String × String)) (g t : String) (c : Nat) :
    (g, t, c) ∈ grouped2 rows ↔ (g, t) ∈ rows ∧ c = rows.count (g, t) := by
  unfold grouped2
  rw [List.mem_map]
  constructor
  · rintro ⟨r, hr, heq⟩
    obtain ⟨hg, ht, hc⟩ : r.1 = g ∧ r.2 = t ∧ rows.count r = c := by
      refine ⟨congrArg Prod.fst heq, ?_, congrArg (fun p => p.2.2) heq⟩
      have := congrArg (fun p => p.2.1) heq
      simpa using this
    have hrgt : r = (g, t) := Prod.ext hg ht
    rw [hrgt] at hr hc
    exact ⟨((firstOccs_props rows).1 _).mp hr, hc.symm⟩
  · rintro ⟨hmem, hc⟩
    exact ⟨(g, t), ((firstOccs_props rows).1 _).mpr hmem, by rw [hc]⟩

theorem grouped2_keys_distinct (rows : List (String × String)) :
    List.Pairwise (fun a b => ¬(a.1 = b.1 ∧ a.2.1 = b.2.1)) (grouped2 rows) := by
  unfold grouped2
  rw [List.pairwise_map]
  apply (firstOccs_props rows).2.imp
  intro a b hab hc
  exact hab (Prod.ext hc.1 hc.2)

theorem grouped2_any_key (rows : List (String × String)) (g : String) :
    ((grouped2 rows).any fun r => r.1 == g) = (rows.any fun p => p.1 == g) := by
  rcases h : rows.any fun p => p.1 == g with _ | _
  · rw [List.any_eq_false] at h ⊢
    intro r hr
    unfold grouped2 at hr
    rw [List.mem_map] at hr
    obtain ⟨p, hp, heq⟩ := hr
    have hpmem := ((firstOccs_props rows).1 _).mp hp
    have : r.1 = p.1 := by rw [← heq]
    rw [this]
    exact h p hpmem
  · rw [List.any_eq_true] at h ⊢
    obtain ⟨p, hp, hpg⟩ := h
    have hcnt : (p.1, p.2) ∈ rows := by simpa using hp
    refine ⟨(p.1, p.2, rows.count (p.1, p.2)), ?_, hpg⟩
    exact (grouped2_mem rows p.1 p.2 _).mpr ⟨hcnt, rfl⟩

theorem agg_lookup (zeros : List (String × Nat)) (rows : List (String × String))
    (g : String) :
    dictGet g ((grouped2 rows).foldl (aggStep zeros) []) =
      if (rows.any fun p => p.1 == g) = true then
        some (applyUpd g (grouped2 rows) zeros) else none := by
  rw [dictGet_foldl_aggStep]
  show (if ((grouped2 rows).any fun r => r.1 == g) = true then
      some (applyUpd g (grouped2 rows) zeros) else none) = _
  rw [grouped2_any_key]

theorem agg_value (zeros : List (String × Nat)) (rows : List (String × String))
    (g t : String) (m : List (String × Nat))
    (hm : dictGet g ((grouped2 rows).foldl (aggStep zeros) []) = some m) :
    dictGet t m =
      if (g, t) ∈ rows then some (rows.count (g, t)) else dictGet t zeros := by
  rw [agg_lookup] at hm
  by_cases hg : (rows.any fun p => p.1 == g) = true
  · rw [if_pos hg, Option.some.injEq] at hm
    subst hm
    by_cases hmem : (g, t) ∈ rows
    · rw [if_pos hmem]
      exact applyUpd_found g t _ _ zeros (grouped2_keys_distinct rows)
        ((grouped2_mem rows g t _).mpr ⟨hmem, rfl⟩)
    · rw [if_neg hmem]
      apply applyUpd_absent
      intro r hr hc
      obtain ⟨g', t', c'⟩ := r
      simp only at hc
      rw [hc.1, hc.2] at hr
      exact hmem ((grouped2_mem rows g t c').mp hr).1
  · rw [if_neg hg] at hm
    cases hm

theorem foldl_max_init_le (l : List Nat) (init : Nat) : init ≤ l.foldl max init := by
  induction l generalizing init with
  | nil => simp [List.foldl]
  | cons x xs ih => exact le_trans (le_max_left init x) (ih (max init x))

theorem le_foldl_max (l : List Nat) (a : Nat) :
    ∀ init, a ∈ l → a ≤ l.foldl max init := by
  induction l with
  | nil => intro _ ha; cases ha
  | cons x xs ih =>
    intro init ha
    rcases List.mem_cons.mp ha with rfl | h
    · exact le_trans (le_max_right init a) (foldl_max_init_le xs (max init a))
    · exact ih (max init x) h

theorem type_grade_rows_count (db : DB) (g t : String) :
    (type_grade_rows db).count (g, t) = offense_count_in db g t := by
  unfold type_grade_rows offense_count_in
  generalize db.offenses = l
  induction l with
  | nil => rfl
  | cons o rest ih =>
    rw [List.filterMap_cons, List.filter_cons]
    cases hfind : db.students.find? fun st => st.id == o.student_id with
    | none => simp [ih]
    | some st =>
      simp only [Option.map_some', Option.any_some]
      rw [List.count_cons]
      by_cases h1 : o.offense_type = t <;> by_cases h2 : st.grade_level = g <;>
        simp [h1, h2, ih]
  -- the `find?` scrutinee is fixed by `hfind` inside each simp call above

theorem type_grade_rows_any_key (db : DB) (g : String) :
    ((type_grade_rows db).any fun p => p.1 == g) = grade_has_offense db g := by
  unfold type_grade_rows grade_has_offense
  generalize db.offenses = l
  induction l with
  | nil => rfl
  | cons o rest ih =>
    rw [List.filterMap_cons, List.any_cons]
    cases hfind : db.students.find? fun st => st.id == o.student_id with
    | none => simp [ih]
    | some st => simp [List.any_cons, ih]

theorem gender_grade_rows_any_key (db : DB) (g : String) :
    ((gender_grade_rows db).any fun p => p.1 == g) = grade_has_offense db g := by
  unfold gender_grade_rows grade_has_offense
  generalize db.offenses = l
  induction l with
  | nil => rfl
  | cons o rest ih =>
    rw [List.filterMap_cons, List.any_cons]
    cases hfind : db.students.find? fun st => st.id == o.student_id with
    | none => simp [ih]
    | some st => simp [List.any_cons, ih]

theorem agg_value_enum (zeros : List (String × Nat)) (rows : List (String × String))
    (g t : String) (m : List (String × Nat))
    (hm : dictGet g ((grouped2 rows).foldl (aggStep zeros) []) = some m)
    (hz : dictGet t zeros = some 0) :
    dictGet t m = some (rows.count (g, t)) := by
  rw [agg_value zeros rows g t m hm]
  by_cases hmem : (g, t) ∈ rows
  · rw [if_pos hmem]
  · rw [if_neg hmem, hz, List.count_eq_zero.mpr hmem]

/-! ## C1: cascade delete of a student -/

/-- **C1.** For every existing student id, `delete_student id` succeeds as one
atomic step (a single model transition, mirroring the single
`db.session.commit()`), after which `listOffensesForStudent id` is empty and
referential integrity — no offense referencing a nonexistent student — is
preserved, so at no observable point does an offense dangle. -/
theorem cascade_delete_student (db : DB) (id : Nat)
    (h : ∃ st ∈ db.students, st.id = id) :
    ∃ db', delete_student db id = Except.ok db' ∧
      listOffensesForStudent db' id = [] ∧
      (∀ o ∈ db'.offenses, o.student_id ≠ id) ∧
      (RefIntegrity db → RefIntegrity db') := by
  obtain ⟨st, hst, hid⟩ := h
  have hany : (db.students.any fun s => s.id == id) = true :=
    List.any_eq_true.mpr ⟨st, hst, by simp [hid]⟩
  refine ⟨{ db with
            offenses := db.offenses.filter (fun o => o.student_id != id),
            students := db.students.filter (fun st => st.id != id) },
          by simp [delete_student, hany], ?_, ?_, ?_⟩
  · simp only [listOffensesForStudent]
    rw [List.filter_eq_nil_iff]
    intro o ho
    have h2 := (List.mem_filter.mp ho).2
    simp only [bne_iff_ne, ne_eq] at h2
    simp [h2]
  · intro o ho
    have h2 := (List.mem_filter.mp ho).2
    simpa using h2
  · intro hri o ho
    have hmem := List.mem_filter.mp ho
    obtain ⟨st', hst', heq⟩ := hri o hmem.1
    have hne : o.student_id ≠ id := by simpa using hmem.2
    refine ⟨st', List.mem_filter.mpr ⟨hst', ?_⟩, heq⟩
    simp only [bne_iff_ne, ne_eq, heq]
    exact hne

/-- **C1 witness**: the cascade delete at a concrete store. -/
theorem cascade_delete_student_witness :
    ∃ db', delete_student fxDB 1 = Except.ok db' ∧
      listOffensesForStudent db' 1 = [] ∧
      (∀ o ∈ db'.offenses, o.student_id ≠ 1) ∧
      (RefIntegrity fxDB → RefIntegrity db') :=
  cascade_delete_student fxDB 1 ⟨fxStudent1, by decide, rfl⟩

/-! ## C8: deleting an offense twice -/

/-- **C8.** For every offense id present in the store, the first
`delete_offense` succeeds, and a second `delete_offense` on the same id
returns `NotFoundError` and leaves the store unchanged (the error path
commits nothing, so the first call's effect stands). -/
theorem delete_offense_twice (db : DB) (id : Nat)
    (h : ∃ o ∈ db.offenses, o.id = id) :
    ∃ db', delete_offense db id = Except.ok db' ∧
      delete_offense db' id = Except.error AppError.NotFoundError ∧
      db_after (delete_offense db' id) db' = db' := by
  obtain ⟨o, ho, hid⟩ := h
  have hany : (db.offenses.any fun x => x.id == id) = true :=
    List.any_eq_true.mpr ⟨o, ho, by simp [hid]⟩
  have hgone :
      ((db.offenses.filter fun x => x.id != id).any fun x => x.id == id) = false := by
    rw [List.any_eq_false]
    intro x hx
    have h2 := (List.mem_filter.mp hx).2
    simpa using h2
  refine ⟨{ db with offenses := db.offenses.filter (fun o => o.id != id) },
          by simp [delete_offense, hany], ?_, ?_⟩
  · simp [delete_offense, hgone]
  · simp [delete_offense, hgone, db_after]

/-- **C8 witness**: double delete at a concrete store. -/
theorem delete_offense_twice_witness :
    ∃ db', delete_offense fxDB 3 = Except.ok db' ∧
      delete_offense db' 3 = Except.error AppError.NotFoundError ∧
      db_after (delete_offense db' 3) db' = db' :=
  delete_offense_twice fxDB 3 ⟨fxO3, by decide, rfl⟩

/-! ## C4: duplicate registration and password storage -/

/-- **C4.** Whenever `register` succeeds, any second registration with the same
email yields `DuplicateError`, commits nothing (the store is unchanged), and
the store holds exactly one user with that email; the successful registration
appended exactly one user whose stored credential is the salted hash of the
password — and (for a non-empty salt) not the plaintext itself. The
uniqueness check runs before any record is created. -/
theorem register_duplicate_rejected (db : DB) (email password salt : String) (db' : DB)
    (h : register db email password salt = Except.ok db') :
    (∀ password' salt',
        register db' email password' salt' = Except.error AppError.DuplicateError ∧
        db_after (register db' email password' salt') db' = db') ∧
    (db'.users.filter (fun u => u.email == email)).length = 1 ∧
    (∃ u, db'.users = db.users ++ [u] ∧ u.email = email ∧
        u.password_hash = generate_password_hash salt password ∧
        (salt ≠ "" → u.password_hash.digest ≠ password)) := by
  by_cases hdup : (db.users.any fun u => u.email == email) = true
  · simp [register, hdup] at h
  · have hdup' : (db.users.any fun u => u.email == email) = false :=
      Bool.eq_false_iff.mpr hdup
    simp only [register, hdup', Bool.false_eq_true, if_false, Except.ok.injEq] at h
    subst h
    set u : User :=
      { id := nextId (db.users.map User.id), email := email,
        password_hash := generate_password_hash salt password } with hu
    have humem : u ∈ db.users ++ [u] := List.mem_append.mpr (Or.inr (List.mem_singleton.mpr rfl))
    have hany2 : ((db.users ++ [u]).any fun x => x.email == email) = true :=
      List.any_eq_true.mpr ⟨u, humem, by simp [hu]⟩
    refine ⟨?_, ?_, u, rfl, rfl, rfl, ?_⟩
    · intro password' salt'
      constructor
      · simp [register, hany2]
      · simp [register, hany2, db_after]
    · have hnil : db.users.filter (fun x => x.email == email) = [] :=
        List.filter_eq_nil_iff.mpr (List.any_eq_false.mp hdup')
      rw [List.filter_append, hnil]
      simp [hu]
    · intro hs hcontra
      have : password.length + salt.length = password.length := by
        have := congrArg String.length hcontra
        simpa [generate_password_hash, String.length_append] using this
      have hzero : salt.length = 0 := by omega
      apply hs
      apply String.ext
      have : salt.data.length = 0 := hzero
      simpa using List.length_eq_zero.mp this

/-- **C4 witness**: a duplicate registration at a concrete store. -/
theorem register_duplicate_rejected_witness :
    (∀ password' salt',
        register (db_after (register fxDB "a@b.c" "pw" "s1") fxDB) "a@b.c" password' salt' =
          Except.error AppError.DuplicateError ∧
        db_after (register (db_after (register fxDB "a@b.c" "pw" "s1") fxDB) "a@b.c" password' salt')
            (db_after (register fxDB "a@b.c" "pw" "s1") fxDB) =
          db_after (register fxDB "a@b.c" "pw" "s1") fxDB) ∧
    ((db_after (register fxDB "a@b.c" "pw" "s1") fxDB).users.filter
        (fun u => u.email == "a@b.c")).length = 1 ∧
    (∃ u, (db_after (register fxDB "a@b.c" "pw" "s1") fxDB).users = fxDB.users ++ [u] ∧
        u.email = "a@b.c" ∧
        u.password_hash = generate_password_hash "s1" "pw" ∧
        ("s1" ≠ "" → u.password_hash.digest ≠ "pw")) :=
  register_duplicate_rejected fxDB "a@b.c" "pw" "s1"
    (db_after (register fxDB "a@b.c" "pw" "s1") fxDB) rfl

/-! ## C7: authenticate after register -/

/-- **C7.** Whenever `register db email password salt` succeeds, `login` with
the same email and password returns exactly the user record the registration
created, and `login` with any altered password for that email returns the
invalid-credentials error. -/
theorem authenticate_after_register (db : DB) (email password salt : String) (db' : DB)
    (h : register db email password salt = Except.ok db') :
    ∃ u, db'.users = db.users ++ [u] ∧
      login db' email password = Except.ok u ∧
      (∀ password', password' ≠ password →
        login db' email password' = Except.error AppError.AuthenticationError) := by
  by_cases hdup : (db.users.any fun u => u.email == email) = true
  · simp [register, hdup] at h
  · have hdup' : (db.users.any fun u => u.email == email) = false :=
      Bool.eq_false_iff.mpr hdup
    simp only [register, hdup', Bool.false_eq_true, if_false, Except.ok.injEq] at h
    subst h
    set u : User :=
      { id := nextId (db.users.map User.id), email := email,
        password_hash := generate_password_hash salt password } with hu
    have hnone : db.users.find? (fun x => x.email == email) = none :=
      List.find?_eq_none.mpr (List.any_eq_false.mp hdup')
    have hfind : (db.users ++ [u]).find? (fun x => x.email == email) = some u := by
      rw [find?_append_none _ _ _ hnone]
      simp [List.find?, hu]
    refine ⟨u, rfl, ?_, ?_⟩
    · simp [login, hnone, User.check_password, check_password_hash, hu,
            generate_password_hash]
    · intro password' hne
      have hchk : u.check_password password' = false := by
        simp only [User.check_password, check_password_hash, hu, generate_password_hash]
        simp only [beq_eq_false_iff_ne, ne_eq]
        intro hcontra
        exact hne (string_append_cancel hcontra).symm
      simp only [login, hfind, hchk, Bool.false_eq_true, if_false]

/-- **C7 witness**: register then authenticate at a concrete store. -/
theorem authenticate_after_register_witness :
    ∃ u, (db_after (register fxDB "a@b.c" "pw" "s1") fxDB).users = fxDB.users ++ [u] ∧
      login (db_after (register fxDB "a@b.c" "pw" "s1") fxDB) "a@b.c" "pw" = Except.ok u ∧
      (∀ password', password' ≠ "pw" →
        login (db_after (register fxDB "a@b.c" "pw" "s1") fxDB) "a@b.c" password' =
          Except.error AppError.AuthenticationError) :=
  authenticate_after_register fxDB "a@b.c" "pw" "s1"
    (db_after (register fxDB "a@b.c" "pw" "s1") fxDB) rfl

theorem DateD.le_iff (a b : DateD) : DateD.le a b = true ↔
    (a.year < b.year ∨ (a.year = b.year ∧
      (a.month < b.month ∨ (a.month = b.month ∧ a.day ≤ b.day)))) := by
  unfold DateD.le
  simp only [Bool.or_eq_true, Bool.and_eq_true, decide_eq_true_eq]

theorem DateD.le_trans' (a b c : DateD) (hab : DateD.le a b = true)
    (hbc : DateD.le b c = true) : DateD.le a c = true := by
  rw [DateD.le_iff] at *
  omega

theorem DateD.le_total' (a b : DateD) : (DateD.le a b || DateD.le b a) = true := by
  rw [Bool.or_eq_true, DateD.le_iff, DateD.le_iff]
  omega

theorem build_buckets_general :
    ∀ (L : List Offense) (A : List (Nat × List String)) (d : Nat),
      (dictGet d (L.foldl (fun acc o =>
          dictSet o.date.day ((dictGet o.date.day acc).getD [] ++ [offense_detail o]) acc)
        A)).getD [] =
      (dictGet d A).getD [] ++
        (L.filter (fun o => o.date.day == d)).map offense_detail := by
  intro L
  induction L with
  | nil => intro A d; simp
  | cons o L ih =>
    intro A d
    rw [List.foldl_cons, ih, List.filter_cons]
    by_cases hd : o.date.day = d
    · rw [if_pos (by simp [hd]), dictGet_dictSet]
      rw [if_pos (by simp [hd]), Option.getD_some, hd, List.map_cons, List.append_assoc]
      simp
    · rw [if_neg (by simp [hd]), dictGet_dictSet, if_neg (by simp [hd])]

theorem build_offense_dates_bucket (L : List Offense) (d : Nat) :
    (dictGet d (build_offense_dates L)).getD [] =
      (L.filter (fun o => o.date.day == d)).map offense_detail := by
  unfold build_offense_dates
  rw [build_buckets_general L [] d]
  rfl

theorem calendar_offenses_sorted (db : DB) (id : Nat) (year : Int) (m : Nat) :
    List.Pairwise (fun a b => DateD.le a.date b.date = true)
      (calendar_offenses db id year m) := by
  unfold calendar_offenses
  exact List.sorted_mergeSort
    (fun a b c hab hbc => DateD.le_trans' a.date b.date c.date hab hbc)
    (fun a b => DateD.le_total' a.date b.date) _

theorem calendar_offenses_mem (db : DB) (id : Nat) (year : Int) (m : Nat)
    (o : Offense) :
    o ∈ calendar_offenses db id year m ↔
      o ∈ db.offenses ∧ o.student_id = id ∧
      DateD.le { year := year, month := m, day := 1 } o.date = true ∧
      DateD.le o.date { year := year, month := m, day := monthLength year m } = true := by
  unfold calendar_offenses
  rw [(List.mergeSort_perm _ _).mem_iff, List.mem_filter]
  simp only [Bool.and_eq_true, beq_iff_eq]
  tauto

/-! ## C5: out-of-range month falls back to the current month -/

/-- **C5.** For every existing student id and every month argument outside
1-12, `calendar_view` behaves exactly as if called with the current calendar
month (`datetime.now().month`) and returns normally (an `ok` result whose
effective month is the current month) rather than erroring. -/
theorem calendar_month_fallback (db : DB) (id : Nat) (year : Int) (month : Int)
    (nowMonth : Nat) (hstu : ∃ st ∈ db.students, st.id = id)
    (hm : month < 1 ∨ month > 12) (hlo : 1 ≤ nowMonth) (hhi : nowMonth ≤ 12) :
    calendar_view db id year month nowMonth =
      calendar_view db id year (nowMonth : Int) nowMonth ∧
    ∃ r, calendar_view db id year month nowMonth = Except.ok r ∧ r.month = nowMonth := by
  have heff1 : effective_month month nowMonth = nowMonth := by
    unfold effective_month
    have hc : (decide (month < 1) || decide (month > 12)) = true := by
      rcases hm with h | h <;> simp [h]
    rw [if_pos hc]
  have heff2 : effective_month (nowMonth : Int) nowMonth = nowMonth := by
    unfold effective_month
    have hc : (decide ((nowMonth : Int) < 1) || decide ((nowMonth : Int) > 12)) = false := by
      simp only [Bool.or_eq_false_iff, decide_eq_false_iff_not, not_lt, gt_iff_lt]
      omega
    rw [if_neg (by rw [hc]; simp), Int.toNat_natCast]
  have hmain : calendar_view db id year month nowMonth =
      calendar_view db id year (nowMonth : Int) nowMonth := by
    simp only [calendar_view, heff1, heff2]
  obtain ⟨st, hst, hid⟩ := hstu
  have hany : (db.students.any fun s => s.id == id) = true :=
    List.any_eq_true.mpr ⟨st, hst, by simp [hid]⟩
  refine ⟨hmain,
    { month := nowMonth,
      offense_dates := build_offense_dates (calendar_offenses db id year nowMonth),
      prev_month := if nowMonth > 1 then nowMonth - 1 else 12,
      prev_year := if nowMonth > 1 then year else year - 1,
      next_month := if nowMonth < 12 then nowMonth + 1 else 1,
      next_year := if nowMonth < 12 then year else year + 1 }, ?_, rfl⟩
  simp only [calendar_view, heff1]
  rw [if_pos hany]

/-- **C5 witness**: month 13 at a concrete store falls back to the current
month (here 3). -/
theorem calendar_month_fallback_witness :
    (calendar_view fxDB 1 2024 13 3 = calendar_view fxDB 1 2024 (3 : Int) 3 ∧
      ∃ r, calendar_view fxDB 1 2024 13 3 = Except.ok r ∧ r.month = 3) :=
  calendar_month_fallback fxDB 1 2024 13 3 ⟨fxStudent1, by decide, rfl⟩
    (by omega) (by omega) (by omega)

/-! ## C6: calendar month view contents -/

/-- **C6.** For every existing student id and valid month (1-12),
`calendar_view` succeeds and its per-day mapping groups exactly the student's
offenses with dates within [first day, last day] of the month (inclusive),
ordered by date ascending, each rendered as
`capitalize(offense_type) - description (YYYY-MM-DD)` with the placeholder
`"No description"` when the description is missing or empty. -/
theorem calendar_view_month_grouping (db : DB) (id : Nat) (year : Int)
    (month : Int) (nowMonth : Nat)
    (hstu : ∃ st ∈ db.students, st.id = id)
    (hm : 1 ≤ month ∧ month ≤ 12) :
    ∃ r, calendar_view db id year month nowMonth = Except.ok r ∧
      r.offense_dates = build_offense_dates (calendar_offenses db id year month.toNat) ∧
      (∀ o : Offense, o ∈ calendar_offenses db id year month.toNat ↔
        o ∈ db.offenses ∧ o.student_id = id ∧
        DateD.le { year := year, month := month.toNat, day := 1 } o.date = true ∧
        DateD.le o.date
          { year := year, month := month.toNat,
            day := monthLength year month.toNat } = true) ∧
      List.Pairwise (fun a b => DateD.le a.date b.date = true)
        (calendar_offenses db id year month.toNat) ∧
      (∀ d : Nat, (dictGet d r.offense_dates).getD [] =
        ((calendar_offenses db id year month.toNat).filter
          (fun o => o.date.day == d)).map offense_detail) ∧
      (∀ o : Offense, o.description = none ∨ o.description = some "" →
        offense_detail o = pyCapitalize o.offense_type ++ " - " ++ "No description" ++
          " (" ++ fmtDate o.date ++ ")") := by
  obtain ⟨st, hst, hid⟩ := hstu
  have hany : (db.students.any fun s => s.id == id) = true :=
    List.any_eq_true.mpr ⟨st, hst, by simp [hid]⟩
  have heff : effective_month month nowMonth = month.toNat := by
    unfold effective_month
    rw [if_neg (by simp only [Bool.or_eq_true, decide_eq_true_eq]; omega)]
  refine ⟨⟨month.toNat,
      build_offense_dates (calendar_offenses db id year month.toNat),
      if month.toNat > 1 then month.toNat - 1 else 12,
      if month.toNat > 1 then year else year - 1,
      if month.toNat < 12 then month.toNat + 1 else 1,
      if month.toNat < 12 then year else year + 1⟩,
    ?_, rfl, ?_, calendar_offenses_sorted db id year month.toNat, ?_, ?_⟩
  · simp only [calendar_view, heff]
    rw [if_pos hany]
  · intro o
    exact calendar_offenses_mem db id year month.toNat o
  · intro d
    exact build_offense_dates_bucket (calendar_offenses db id year month.toNat) d
  · intro o ho
    unfold offense_detail
    rcases ho with h | h
    · rw [h]
    · rw [h]; rfl

/-- **C6 witness**: the calendar of March 2024 for a concrete student. -/
theorem calendar_view_month_grouping_witness :
    ∃ r, calendar_view fxDB 1 2024 3 7 = Except.ok r ∧
      r.offense_dates = build_offense_dates (calendar_offenses fxDB 1 2024 (3 : Int).toNat) ∧
      (∀ o : Offense, o ∈ calendar_offenses fxDB 1 2024 (3 : Int).toNat ↔
        o ∈ fxDB.offenses ∧ o.student_id = 1 ∧
        DateD.le { year := 2024, month := (3 : Int).toNat, day := 1 } o.date = true ∧
        DateD.le o.date
          { year := 2024, month := (3 : Int).toNat,
            day := monthLength 2024 (3 : Int).toNat } = true) ∧
      List.Pairwise (fun a b => DateD.le a.date b.date = true)
        (calendar_offenses fxDB 1 2024 (3 : Int).toNat) ∧
      (∀ d : Nat, (dictGet d r.offense_dates).getD [] =
        ((calendar_offenses fxDB 1 2024 (3 : Int).toNat).filter
          (fun o => o.date.day == d)).map offense_detail) ∧
      (∀ o : Offense, o.description = none ∨ o.description = some "" →
        offense_detail o = pyCapitalize o.offense_type ++ " - " ++ "No description" ++
          " (" ++ fmtDate o.date ++ ")") :=
  calendar_view_month_grouping fxDB 1 2024 3 7 ⟨fxStudent1, by decide, rfl⟩ (by omega)

/-! ## C3: search and pagination -/

theorem all_offenses_eq_of_pos (db : DB) (term : String) (page : Int)
    (hp : 1 ≤ page) :
    all_offenses db term page =
      ((all_offenses_query db term).drop ((page.toNat - 1) * 20)).take 20 := by
  simp only [all_offenses]
  rw [if_neg (by omega)]

theorem all_offenses_query_sorted (db : DB) (term : String) :
    List.Pairwise (fun a b => DateD.le b.date a.date = true)
      (all_offenses_query db term) := by
  have hbase : List.Pairwise (fun a b => DateD.le b.date a.date = true)
      ((db.offenses.filter (fun o =>
        db.students.any (fun st => st.id == o.student_id))).mergeSort
        (fun a b => DateD.le b.date a.date)) :=
    List.sorted_mergeSort
      (fun a b c hab hbc => DateD.le_trans' c.date b.date a.date hbc hab)
      (fun a b => DateD.le_total' b.date a.date) _
  simp only [all_offenses_query]
  split
  · exact List.Pairwise.sublist (List.filter_sublist _) hbase
  · exact hbase

theorem all_offenses_query_mem (db : DB) (term : String) (o : Offense) :
    o ∈ all_offenses_query db term ↔
      o ∈ db.offenses ∧
      (db.students.any fun st => st.id == o.student_id) = true ∧
      (pyStrip term ≠ "" → matchesSearch db (pyStrip term) o = true) := by
  simp only [all_offenses_query]
  by_cases hs : pyStrip term = ""
  · rw [if_neg (by simp [hs]), (List.mergeSort_perm _ _).mem_iff, List.mem_filter]
    simp [hs]
  · rw [if_pos (by simp [hs]), List.mem_filter,
      (List.mergeSort_perm _ _).mem_iff, List.mem_filter]
    constructor
    · rintro ⟨⟨ho, hj⟩, hmatch⟩
      exact ⟨ho, hj, fun _ => hmatch⟩
    · rintro ⟨ho, hj, hmatch⟩
      exact ⟨⟨ho, hj⟩, hmatch hs⟩

theorem likeSuffix_eq_any_tails (rest : List Char → Bool) :
    ∀ s : List Char, likeSuffix rest s = s.tails.any rest := by
  intro s
  induction s with
  | nil =>
    show rest [] = [[]].any rest
    simp
  | cons c s ih => simp [likeSuffix, List.tails_cons, ih]

theorem likeSuffix_empty_pattern :
    ∀ s : List Char, likeSuffix (likeMatch []) s = true := by
  intro s
  induction s with
  | nil => rfl
  | cons c s ih => simp [likeSuffix, ih]

theorem likeMatch_lit_pct :
    ∀ t : List Char, (∀ c ∈ t, c ≠ '%' ∧ c ≠ '_') →
      ∀ s : List Char, likeMatch (t ++ ['%']) s = t.isPrefixOf s := by
  intro t
  induction t with
  | nil =>
    intro _ s
    simp only [List.nil_append]
    have h1 : likeMatch ['%'] s = true := likeSuffix_empty_pattern s
    rw [h1]
    cases s <;> rfl
  | cons c t ih =>
    intro ht s
    have hc := ht c (List.mem_cons_self _ _)
    have ht' : ∀ x ∈ t, x ≠ '%' ∧ x ≠ '_' :=
      fun x hx => ht x (List.mem_cons_of_mem _ hx)
    cases s with
    | nil =>
      show likeMatch (c :: (t ++ ['%'])) [] = _
      simp only [likeMatch]
      rw [if_neg hc.1]
      rfl
    | cons d s' =>
      show likeMatch (c :: (t ++ ['%'])) (d :: s') = _
      simp only [likeMatch]
      rw [if_neg hc.1]
      show ((decide (c = '_') || decide (c = d)) && likeMatch (t ++ ['%']) s') =
        ((c == d) && t.isPrefixOf s')
      rw [ih ht' s']
      have h2 : decide (c = '_') = false := by simp [hc.2]
      rw [h2, Bool.false_or]
      by_cases hcd : c = d <;> simp [hcd]

theorem infixCheck_eq_any_tails (t : List Char) :
    ∀ s : List Char, infixCheck t s = s.tails.any (fun s' => t.isPrefixOf s') := by
  intro s
  induction s with
  | nil => cases t <;> rfl
  | cons c s ih => simp [infixCheck, List.tails_cons, ih]

theorem likeMatch_contains (t : List Char) (ht : ∀ c ∈ t, c ≠ '%' ∧ c ≠ '_')
    (s : List Char) :
    likeMatch ('%' :: (t ++ ['%'])) s = infixCheck t s := by
  have h1 : likeMatch ('%' :: (t ++ ['%'])) s =
      likeSuffix (likeMatch (t ++ ['%'])) s := rfl
  rw [h1, likeSuffix_eq_any_tails, infixCheck_eq_any_tails]
  have h2 : likeMatch (t ++ ['%']) = (fun s' => t.isPrefixOf s') :=
    funext (likeMatch_lit_pct t ht)
  rw [h2]

theorem matchesSearch_eq_literal (db : DB) (term : String) (o : Offense)
    (ht : ∀ c ∈ lowerChars term, c ≠ '%' ∧ c ≠ '_') :
    matchesSearch db term o = literal_substring_match db term o := by
  unfold matchesSearch literal_substring_match ilike
  cases hf : db.students.find? (fun st => st.id == o.student_id) with
  | none =>
    cases hd : o.description with
    | none =>
      show (false || false ||
          likeMatch ('%' :: (lowerChars term ++ ['%'])) (lowerChars o.offense_type)) =
        (false || false || infixCheck (lowerChars term) (lowerChars o.offense_type))
      rw [likeMatch_contains (lowerChars term) ht (lowerChars o.offense_type)]
    | some d =>
      show (false || likeMatch ('%' :: (lowerChars term ++ ['%'])) (lowerChars d) ||
          likeMatch ('%' :: (lowerChars term ++ ['%'])) (lowerChars o.offense_type)) =
        (false || infixCheck (lowerChars term) (lowerChars d) ||
          infixCheck (lowerChars term) (lowerChars o.offense_type))
      rw [likeMatch_contains (lowerChars term) ht (lowerChars d),
        likeMatch_contains (lowerChars term) ht (lowerChars o.offense_type)]
  | some st =>
    cases hd : o.description with
    | none =>
      show (likeMatch ('%' :: (lowerChars term ++ ['%'])) (lowerChars st.name) ||
          false ||
          likeMatch ('%' :: (lowerChars term ++ ['%'])) (lowerChars o.offense_type)) =
        (infixCheck (lowerChars term) (lowerChars st.name) || false ||
          infixCheck (lowerChars term) (lowerChars o.offense_type))
      rw [likeMatch_contains (lowerChars term) ht (lowerChars st.name),
        likeMatch_contains (lowerChars term) ht (lowerChars o.offense_type)]
    | some d =>
      show (likeMatch ('%' :: (lowerChars term ++ ['%'])) (lowerChars st.name) ||
          likeMatch ('%' :: (lowerChars term ++ ['%'])) (lowerChars d) ||
          likeMatch ('%' :: (lowerChars term ++ ['%'])) (lowerChars o.offense_type)) =
        (infixCheck (lowerChars term) (lowerChars st.name) ||
          infixCheck (lowerChars term) (lowerChars d) ||
          infixCheck (lowerChars term) (lowerChars o.offense_type))
      rw [likeMatch_contains (lowerChars term) ht (lowerChars st.name),
        likeMatch_contains (lowerChars term) ht (lowerChars d),
        likeMatch_contains (lowerChars term) ht (lowerChars o.offense_type)]

/-- **C3 (amended).** For every search term and page ≥ 1 (pages are
1-indexed), `all_offenses` serves page `page` of the date-descending query in
slices of 20: the page is exactly that slice, holds at most 20 offenses, is
ordered by date descending, every offense on it belongs to the store and —
when the stripped term is non-empty — matches the term case-insensitively
under the SQL pattern `'%term%'` built by the code with the term interpolated
unescaped, so `%` and `_` inside the term act as LIKE wildcards; every
matching offense appears on some page; a page past the end is the empty list
rather than an error; and whenever the term contains no LIKE metacharacter
the match coincides with literal case-insensitive substring containment over
the owning student's name, the description, and the offense type. -/
theorem search_pagination_spec (db : DB) (term : String) (page : Int)
    (hp : 1 ≤ page) :
    all_offenses db term page =
      ((all_offenses_query db term).drop ((page.toNat - 1) * 20)).take 20 ∧
    (all_offenses db term page).length ≤ 20 ∧
    List.Pairwise (fun a b => DateD.le b.date a.date = true)
      (all_offenses db term page) ∧
    (∀ o ∈ all_offenses db term page,
      o ∈ db.offenses ∧ (pyStrip term ≠ "" → matchesSearch db (pyStrip term) o = true)) ∧
    (∀ o ∈ db.offenses,
      (db.students.any fun st => st.id == o.student_id) = true →
      (pyStrip term ≠ "" → matchesSearch db (pyStrip term) o = true) →
      ∃ pg : Int, 1 ≤ pg ∧ o ∈ all_offenses db term pg) ∧
    ((all_offenses_query db term).length ≤ (page.toNat - 1) * 20 →
      all_offenses db term page = []) ∧
    ((∀ c ∈ lowerChars (pyStrip term), c ≠ '%' ∧ c ≠ '_') →
      ∀ o : Offense, matchesSearch db (pyStrip term) o =
        literal_substring_match db (pyStrip term) o) := by
  have heq := all_offenses_eq_of_pos db term page hp
  have hsub : ∀ pg : Nat,
      ((all_offenses_query db term).drop (pg * 20)).take 20 ⊆
        all_offenses_query db term := by
    intro pg o ho
    exact List.Sublist.mem ho
      ((List.take_sublist _ _).trans (List.drop_sublist _ _))
  refine ⟨heq, ?_, ?_, ?_, ?_, ?_, ?_⟩
  · rw [heq]
    exact List.length_take_le _ _
  · rw [heq]
    exact List.Pairwise.sublist
      ((List.take_sublist _ _).trans (List.drop_sublist _ _))
      (all_offenses_query_sorted db term)
  · intro o ho
    rw [heq] at ho
    have hmem := (all_offenses_query_mem db term o).mp (hsub _ ho)
    exact ⟨hmem.1, hmem.2.2⟩
  · intro o ho hj hmatch
    have hoq : o ∈ all_offenses_query db term :=
      (all_offenses_query_mem db term o).mpr ⟨ho, hj, hmatch⟩
    rw [List.mem_iff_getElem] at hoq
    obtain ⟨i, hi, hgi⟩ := hoq
    have hp1 : (1 : Int) ≤ ((i / 20 : Nat) : Int) + 1 := by omega
    refine ⟨((i / 20 : Nat) : Int) + 1, hp1, ?_⟩
    rw [all_offenses_eq_of_pos db term _ hp1]
    have htn : (((i / 20 : Nat) : Int) + 1).toNat - 1 = i / 20 := by omega
    rw [htn]
    have hbound : i % 20 <
        (((all_offenses_query db term).drop (i / 20 * 20)).take 20).length := by
      rw [List.length_take, List.length_drop]
      have := Nat.div_add_mod i 20
      have h2 : i % 20 < 20 := Nat.mod_lt _ (by omega)
      omega
    rw [List.mem_iff_getElem]
    refine ⟨i % 20, hbound, ?_⟩
    rw [List.getElem_take, List.getElem_drop, ← hgi]
    congr 1
    omega
  · intro hlen
    rw [heq, List.drop_eq_nil_of_le hlen, List.take_nil]
  · intro hwc o
    exact matchesSearch_eq_literal db (pyStrip term) o hwc

/-- **C3 counterexample.** The frozen claim's literal-substring reading is
false of the code: app.py line 348 interpolates the raw term into the LIKE
pattern (`f"%{search}%"`) with no escaping, so for the term `"_"` the pattern
`%_%` matches every offense with a non-empty searched field. On a store whose
only offense has student name "A", description NULL and type "warning" —
none of which contains a literal underscore — page 1 for term `"_"`
nevertheless contains that offense. -/
theorem search_literal_substring_counterexample :
    fxO5 ∈ all_offenses fxDB3 "_" 1 ∧
    literal_substring_match fxDB3 "_" fxO5 = false := by
  constructor
  · rw [all_offenses_eq_of_pos fxDB3 "_" 1 (by omega)]
    have hcond : ((pyStrip "_") != "") = true := by decide
    simp only [all_offenses_query]
    rw [if_pos hcond]
    have hbase : fxDB3.offenses.filter
        (fun o => fxDB3.students.any (fun st => st.id == o.student_id)) = [fxO5] := rfl
    rw [hbase, List.mergeSort_singleton]
    decide
  · decide

/-- **C3 witness**: the search page at a concrete store, term "smith", page 1. -/
theorem search_pagination_spec_witness :
    all_offenses fxDB "smith" 1 =
      ((all_offenses_query fxDB "smith").drop (((1 : Int).toNat - 1) * 20)).take 20 ∧
    (all_offenses fxDB "smith" 1).length ≤ 20 ∧
    List.Pairwise (fun a b => DateD.le b.date a.date = true)
      (all_offenses fxDB "smith" 1) ∧
    (∀ o ∈ all_offenses fxDB "smith" 1,
      o ∈ fxDB.offenses ∧
      (pyStrip "smith" ≠ "" → matchesSearch fxDB (pyStrip "smith") o = true)) ∧
    (∀ o ∈ fxDB.offenses,
      (fxDB.students.any fun st => st.id == o.student_id) = true →
      (pyStrip "smith" ≠ "" → matchesSearch fxDB (pyStrip "smith") o = true) →
      ∃ pg : Int, 1 ≤ pg ∧ o ∈ all_offenses fxDB "smith" pg) ∧
    ((all_offenses_query fxDB "smith").length ≤ ((1 : Int).toNat - 1) * 20 →
      all_offenses fxDB "smith" 1 = []) ∧
    ((∀ c ∈ lowerChars (pyStrip "smith"), c ≠ '%' ∧ c ≠ '_') →
      ∀ o : Offense, matchesSearch fxDB (pyStrip "smith") o =
        literal_substring_match fxDB (pyStrip "smith") o) :=
  search_pagination_spec fxDB "smith" 1 (by omega)

/-! ## C9: roster listing order -/

/-- **C9.** `students` returns every `Student` record in the stored
(insertion) order, and that order is the ascending primary-key order: it is an
invariant of the mutation operations (fresh ids exceed every existing id, edits
keep ids, deletes keep relative order), so on every reachable store the roster
is sorted by id. -/
theorem students_roster_order :
    (∀ db : DB, students db = db.students) ∧
    (∀ db : DB, idSorted db →
      List.Pairwise (fun a b => a.id < b.id) (students db)) ∧
    (∀ db name age gender grade_level sect strand, idSorted db →
      idSorted (add_student db name age gender grade_level sect strand)) ∧
    (∀ db id db', idSorted db → delete_student db id = Except.ok db' → idSorted db') ∧
    (∀ db id name age gender grade_level sect strand db', idSorted db →
      edit_student db id name age gender grade_level sect strand = Except.ok db' →
      idSorted db') := by
  refine ⟨fun _ => rfl, fun _ h => h, ?_, ?_, ?_⟩
  · intro db name age gender grade_level sect strand h
    unfold idSorted add_student at *
    rw [List.pairwise_append]
    refine ⟨h, List.pairwise_singleton _ _, ?_⟩
    intro a ha b hb
    rw [List.mem_singleton] at hb
    subst hb
    show a.id < nextId (db.students.map Student.id)
    unfold nextId
    have : a.id ≤ (db.students.map Student.id).foldl max 0 :=
      le_foldl_max _ _ 0 (List.mem_map.mpr ⟨a, ha, rfl⟩)
    omega
  · intro db id db' h hdel
    unfold delete_student at hdel
    split at hdel
    · rw [Except.ok.injEq] at hdel
      subst hdel
      exact List.Pairwise.sublist (List.filter_sublist _) h
    · cases hdel
  · intro db id name age gender grade_level sect strand db' h hedit
    unfold edit_student at hedit
    split at hedit
    · rw [Except.ok.injEq] at hedit
      subst hedit
      unfold idSorted
      simp only [List.pairwise_map]
      apply h.imp
      intro a b hab
      have ha : (if a.id == id then
          { a with name := name, age := age, gender := gender,
                   grade_level := grade_level, «section» := sect, strand := strand }
        else a).id = a.id := by split <;> rfl
      have hb : (if b.id == id then
          { b with name := name, age := age, gender := gender,
                   grade_level := grade_level, «section» := sect, strand := strand }
        else b).id = b.id := by split <;> rfl
      rw [ha, hb]
      exact hab
    · cases hedit

/-! ## C2: offenses grouped by type and grade -/

/-- **C2.** For every store, each grade present in `offenses_by_type_grade`
maps to a dict reporting all three keys `warning`/`minor`/`major`, each equal
to the number of offenses of that type owned by a student of that grade
(joined through the owning student), zero when no such offense exists; and on
the fixture with 2 warnings and 1 major in grade "11" and 1 minor in grade
"12" the endpoint returns exactly
`{"11": {"warning": 2, "minor": 0, "major": 1}, "12": {"warning": 0, "minor": 1, "major": 0}}`. -/
theorem offenses_by_type_grade_spec :
    (∀ (db : DB) (g : String) (m : List (String × Nat)),
      dictGet g (offenses_by_type_grade db) = some m →
      dictGet "warning" m = some (offense_count_in db g "warning") ∧
      dictGet "minor" m = some (offense_count_in db g "minor") ∧
      dictGet "major" m = some (offense_count_in db g "major")) ∧
    offenses_by_type_grade fxDB =
      [("11", [("warning", 2), ("minor", 0), ("major", 1)]),
       ("12", [("warning", 0), ("minor", 1), ("major", 0)])] := by
  constructor
  · intro db g m hm
    rw [offenses_by_type_grade] at hm
    refine ⟨?_, ?_, ?_⟩ <;>
      rw [← type_grade_rows_count] <;>
      exact agg_value_enum _ _ g _ m hm rfl
  · rfl

/-- **C2 witness**: the general clause applied to the fixture, grade "11". -/
theorem offenses_by_type_grade_spec_witness :
    dictGet "warning" [("warning", 2), ("minor", 0), ("major", 1)] =
      some (offense_count_in fxDB "11" "warning") ∧
    dictGet "minor" [("warning", 2), ("minor", 0), ("major", 1)] =
      some (offense_count_in fxDB "11" "minor") ∧
    dictGet "major" [("warning", 2), ("minor", 0), ("major", 1)] =
      some (offense_count_in fxDB "11" "major") :=
  offenses_by_type_grade_spec.1 fxDB "11"
    [("warning", 2), ("minor", 0), ("major", 1)] rfl

/-! ## C10: inner-join key behaviour of both aggregates -/

/-- **C10.** In both aggregates a grade appears as a key exactly when some
offense is owned by a student of that grade (inner join: grades whose students
have no offenses are absent); and any stored `offense_type`/`gender` value —
including values outside the expected enumeration — shows up as a key of the
grade's dict carrying its join count, while the zero-filled enumeration keys
are always present. -/
theorem agg_inner_join_keys :
    (∀ (db : DB) (g : String),
      (dictGet g (offenses_by_type_grade db)).isSome = grade_has_offense db g) ∧
    (∀ (db : DB) (g : String),
      (dictGet g (offenses_by_gender_grade db)).isSome = grade_has_offense db g) ∧
    (∀ (db : DB) (g t : String) (m : List (String × Nat)),
      dictGet g (offenses_by_type_grade db) = some m →
      (g, t) ∈ type_grade_rows db →
      dictGet t m = some ((type_grade_rows db).count (g, t)) ∧
      (dictGet "warning" m).isSome = true ∧
      (dictGet "minor" m).isSome = true ∧
      (dictGet "major" m).isSome = true) ∧
    (∀ (db : DB) (g t : String) (m : List (String × Nat)),
      dictGet g (offenses_by_gender_grade db) = some m →
      (g, t) ∈ gender_grade_rows db →
      dictGet t m = some ((gender_grade_rows db).count (g, t)) ∧
      (dictGet "Male" m).isSome = true ∧
      (dictGet "Female" m).isSome = true) := by
  refine ⟨?_, ?_, ?_, ?_⟩
  · intro db g
    rw [offenses_by_type_grade, agg_lookup, ← type_grade_rows_any_key]
    by_cases h : ((type_grade_rows db).any fun p => p.1 == g) = true
    · rw [if_pos h, h]; rfl
    · rw [if_neg h, Bool.eq_false_iff.mpr h]; rfl
  · intro db g
    rw [offenses_by_gender_grade, agg_lookup, ← gender_grade_rows_any_key]
    by_cases h : ((gender_grade_rows db).any fun p => p.1 == g) = true
    · rw [if_pos h, h]; rfl
    · rw [if_neg h, Bool.eq_false_iff.mpr h]; rfl
  · intro db g t m hm hmem
    rw [offenses_by_type_grade] at hm
    refine ⟨?_, ?_, ?_, ?_⟩
    · rw [agg_value _ _ g t m hm, if_pos hmem]
    · rw [agg_value_enum _ _ g "warning" m hm rfl]; rfl
    · rw [agg_value_enum _ _ g "minor" m hm rfl]; rfl
    · rw [agg_value_enum _ _ g "major" m hm rfl]; rfl
  · intro db g t m hm hmem
    rw [offenses_by_gender_grade] at hm
    refine ⟨?_, ?_, ?_⟩
    · rw [agg_value _ _ g t m hm, if_pos hmem]
    · rw [agg_value_enum _ _ g "Male" m hm rfl]; rfl
    · rw [agg_value_enum _ _ g "Female" m hm rfl]; rfl

/-- **C10 witness**: a stored `offense_type` outside the enumeration
("severe") appears as an extra key with its count beside the zero-filled
enumeration keys. -/
theorem agg_inner_join_keys_witness :
    dictGet "severe" [("warning", 0), ("minor", 0), ("major", 0), ("severe", 1)] =
      some ((type_grade_rows fxDB2).count ("11", "severe")) ∧
    (dictGet "warning" [("warning", 0), ("minor", 0), ("major", 0), ("severe", 1)]).isSome = true ∧
    (dictGet "minor" [("warning", 0), ("minor", 0), ("major", 0), ("severe", 1)]).isSome = true ∧
    (dictGet "major" [("warning", 0), ("minor", 0), ("major", 0), ("severe", 1)]).isSome = true :=
  agg_inner_join_keys.2.2.1 fxDB2 "11" "severe"
    [("warning", 0), ("minor", 0), ("major", 0), ("severe", 1)] rfl (by decide)

/-- **C9 witness**: the roster of a concrete sorted store. -/
theorem students_roster_order_witness :
    students fxDB = fxDB.students ∧
    List.Pairwise (fun a b => a.id < b.id) (students fxDB) ∧
    idSorted (add_student fxDB "Carol" 16 "Female" "11" "C" "HUMSS") :=
  ⟨students_roster_order.1 fxDB,
   students_roster_order.2.1 fxDB (by unfold idSorted; decide),
   students_roster_order.2.2.1 fxDB "Carol" 16 "Female" "11" "C" "HUMSS"
     (by unfold idSorted; decide)⟩

end SDTS
